import Mathlib

/-!
A shallow embedding of the `procmaps` crate: the data model (`AddressRange`,
`Permissions`, `Device`, `Pathname`, `Map`), the per-line record decoder
`Map.parse`, the `Display` renderings of the displayable sub-structures, and
the lazy line iterator `Maps`.  Pure functions from `src/lib.rs` and
`src/error.rs` are translated to Lean functions; `u64` values are `Nat`s kept
below `2 ^ 64` by the checked numeric decoder, exactly as Rust's
`u64::from_str_radix` does.  The pest grammar file `map.pest` is not part of
the sources, so the tokenizer is modelled from the specification's grammar
description (see `tokenizeMap`).
-/

set_option maxRecDepth 4096

deriving instance DecidableEq for Except

namespace Procmaps

/-- Variants of the "pathname" field in a map (`enum Pathname`). -/
inductive Pathname where
  | Stack
  | Vdso
  | Vvar
  | Vsyscall
  | Heap
  | Mmap
  | OtherPseudo (s : String)
  | Path (s : String)
deriving DecidableEq

/-- The address range of a map (`struct AddressRange`); `begin`/`end` are
`u64` in the source, here `Nat`s (`end` is renamed `end_`: Lean keyword). -/
structure AddressRange where
  begin : Nat
  end_ : Nat
deriving DecidableEq

/-- The permissions associated with a map (`struct Permissions`);
`private` is renamed `private_` (Lean keyword). -/
structure Permissions where
  readable : Bool
  writable : Bool
  executable : Bool
  shared : Bool
  private_ : Bool
deriving DecidableEq

/-- The device associated with a map (`struct Device`). -/
structure Device where
  major : Nat
  minor : Nat
deriving DecidableEq

/-- A map, i.e. a region of program memory (`struct Map`). -/
structure Map where
  address_range : AddressRange
  permissions : Permissions
  offset : Nat
  device : Device
  inode : Nat
  pathname : Pathname
deriving DecidableEq

/-- Error states (`enum Error` in `src/error.rs`); the payloads (io error,
pest error, `ParseIntError`) carry only diagnostics and are dropped. -/
inductive Error where
  | Io
  | ParseError
  | WidthError
deriving DecidableEq

/-! ## Tokenizer

Modelled from the spec: the pest grammar `map.pest` is referenced by
`#[grammar = "map.pest"]` but is not among the sources.  Per the spec the
grammar recognizes, in order and separated by whitespace: an address range
(two lowercase-hex tokens joined by `-`), a permission token (exactly 4
characters from the alphabet `{r,-}{w,-}{x,e,-}{s,p}`), a hex offset token, a
device (two hex tokens joined by `:`), a decimal inode token, and the
pathname: the remainder of the line, possibly empty, with leading whitespace
trimmed.
-/

/-- The raw textual fields of one tokenized line. -/
structure ParsedFields where
  beginTok : String
  endTok : String
  perms : String
  offsetTok : String
  majorTok : String
  minorTok : String
  inodeTok : String
  pathname : String
deriving DecidableEq

/-- Lowercase hexadecimal digit, as in the spec's "lowercase-hex token". -/
def isLowerHexDigit (c : Char) : Bool :=
  (decide ('0' ≤ c) && decide (c ≤ '9')) || (decide ('a' ≤ c) && decide (c ≤ 'f'))

/-- Decimal digit. -/
def isDecDigit (c : Char) : Bool :=
  decide ('0' ≤ c) && decide (c ≤ '9')

/-- Take a nonempty maximal run of characters satisfying `p`; fail on an
empty run. -/
def takeTok (p : Char → Bool) (cs : List Char) : Option (List Char × List Char) :=
  match cs.takeWhile p with
  | [] => none
  | t => some (t, cs.dropWhile p)

/-- Consume one expected character. -/
def expectChar (c : Char) : List Char → Option (List Char)
  | d :: rest => if d = c then some rest else none
  | [] => none

/-- Consume one or more spaces (the whitespace separating fields). -/
def skipSpaces1 : List Char → Option (List Char)
  | ' ' :: rest => some (rest.dropWhile (fun c => c = ' '))
  | _ => none

/-- Consume the 4-character permission token, alphabet
`{r,-}{w,-}{x,e,-}{s,p}` per the spec's grammar. -/
def takePerms : List Char → Option (List Char × List Char)
  | c0 :: c1 :: c2 :: c3 :: rest =>
    if (c0 = 'r' || c0 = '-') && (c1 = 'w' || c1 = '-') &&
       (c2 = 'x' || c2 = 'e' || c2 = '-') && (c3 = 's' || c3 = 'p')
    then some ([c0, c1, c2, c3], rest)
    else none
  | _ => none

/-- Modelled from the spec: split one line into the raw fields of a record
(the role of the missing pest grammar `map.pest` plus the `MapParser`
invocation at the top of `Map::parse`). -/
def tokenizeMap (line : String) : Option ParsedFields := do
  let cs := line.data
  let (b, cs) ← takeTok isLowerHexDigit cs
  let cs ← expectChar '-' cs
  let (e, cs) ← takeTok isLowerHexDigit cs
  let cs ← skipSpaces1 cs
  let (p, cs) ← takePerms cs
  let cs ← skipSpaces1 cs
  let (off, cs) ← takeTok isLowerHexDigit cs
  let cs ← skipSpaces1 cs
  let (ma, cs) ← takeTok isLowerHexDigit cs
  let cs ← expectChar ':' cs
  let (mi, cs) ← takeTok isLowerHexDigit cs
  let cs ← skipSpaces1 cs
  let (ino, cs) ← takeTok isDecDigit cs
  let path := cs.dropWhile (fun c => c = ' ')
  some ⟨⟨b⟩, ⟨e⟩, ⟨p⟩, ⟨off⟩, ⟨ma⟩, ⟨mi⟩, ⟨ino⟩, ⟨path⟩⟩

/-! ## Numeric decoding

Model of Rust's `u64::from_str_radix` on the sign-free tokens the grammar
produces: digits are accumulated with an overflow check against `2 ^ 64`
at every step; an empty string or an invalid digit fails.  Any failure is
converted to `Error::WidthError` by the `From<num::ParseIntError>` impl in
`src/error.rs`.
-/

/-- The number of values of a `u64`; a decoded value must stay below it. -/
def U64LIMIT : Nat := 2 ^ 64

/-- Value of one digit character under `radix` (Rust `char::to_digit`). -/
def digitVal (radix : Nat) (c : Char) : Option Nat :=
  let v : Nat :=
    if '0' ≤ c ∧ c ≤ '9' then c.toNat - 48
    else if 'a' ≤ c ∧ c ≤ 'z' then c.toNat - 87
    else if 'A' ≤ c ∧ c ≤ 'Z' then c.toNat - 55
    else 99
  if v < radix then some v else none

/-- Checked digit accumulation: the running value is rejected as soon as it
would leave the `u64` range (Rust's `checked_mul`/`checked_add` loop). -/
def u64FromStrRadixCore (radix : Nat) : Nat → List Char → Option Nat
  | acc, [] => some acc
  | acc, c :: cs =>
    match digitVal radix c with
    | none => none
    | some d =>
      let acc₂ := acc * radix + d
      if acc₂ < U64LIMIT then u64FromStrRadixCore radix acc₂ cs else none

/-- Model of `u64::from_str_radix` on grammar tokens. -/
def u64FromStrRadix (radix : Nat) (s : String) : Option Nat :=
  match s.data with
  | [] => none
  | cs => u64FromStrRadixCore radix 0 cs

/-- The unchecked numeric value a hex token denotes (invalid digits count
as 0; the grammar never produces any). -/
def hexValue (s : String) : Nat :=
  s.data.foldl (fun acc c => acc * 16 + ((digitVal 16 c).getD 0)) 0

/-! ## Field decoding (`Map::parse`, `src/lib.rs`) -/

/-- The fixed pseudo-path table `PSUEDO_PATH_MAP` (a `phf_map`, i.e. exact
string-key lookup). -/
def psuedoPathLookup (s : String) : Option Pathname :=
  if s = "[stack]" then some .Stack
  else if s = "[vdso]" then some .Vdso
  else if s = "[vvar]" then some .Vvar
  else if s = "[vsyscall]" then some .Vsyscall
  else if s = "[heap]" then some .Heap
  else none

/-- First character test (Rust `str::starts_with(char)`). -/
def headIs (c : Char) : List Char → Bool
  | [] => false
  | d :: _ => d == c

/-- Last character test (Rust `str::ends_with(char)`). -/
def lastIs (c : Char) (cs : List Char) : Bool :=
  headIs c cs.reverse

/-- The pathname classification in `Map::parse` (lib.rs lines 183-203). -/
def classifyPathname (s : String) : Pathname :=
  if s.data.isEmpty then .Mmap
  else
    match psuedoPathLookup s with
    | some p => p
    | none =>
      if headIs '[' s.data && lastIs ']' s.data then .OtherPseudo s
      else .Path s

/-- The permission-byte tests in `Map::parse` (lib.rs lines 161-169): the
grammar guarantees 4 characters, so the defaults are never consulted. -/
def decodePermissions (s : String) : Permissions :=
  let p := s.data
  { readable := p.getD 0 ' ' == 'r'
    writable := p.getD 1 ' ' == 'w'
    executable := p.getD 2 ' ' == 'x'
    shared := p.getD 3 ' ' == 's'
    private_ := !(p.getD 3 ' ' == 's') }

/-- `Map::parse`: tokenize the line, then decode each field; a grammar
failure is `Error::ParseError`, any numeric failure is `Error::WidthError`
(every field's `?` conversion goes through `From<num::ParseIntError>`). -/
def Map.parse (line : String) : Except Error Map :=
  match tokenizeMap line with
  | none => .error .ParseError
  | some f =>
    match u64FromStrRadix 16 f.beginTok with
    | none => .error .WidthError
    | some b =>
      match u64FromStrRadix 16 f.endTok with
      | none => .error .WidthError
      | some e =>
        match u64FromStrRadix 16 f.offsetTok with
        | none => .error .WidthError
        | some off =>
          match u64FromStrRadix 16 f.majorTok with
          | none => .error .WidthError
          | some ma =>
            match u64FromStrRadix 16 f.minorTok with
            | none => .error .WidthError
            | some mi =>
              match u64FromStrRadix 10 f.inodeTok with
              | none => .error .WidthError
              | some ino =>
                .ok { address_range := { begin := b, end_ := e }
                      permissions := decodePermissions f.perms
                      offset := off
                      device := { major := ma, minor := mi }
                      inode := ino
                      pathname := classifyPathname f.pathname }

/-- `Map::default` (lib.rs lines 132-143); `Permissions::default` is the
derived `Default`, i.e. every flag `false`. -/
def Map.default : Map :=
  { address_range := { begin := 0, end_ := 0 }
    permissions := { readable := false, writable := false, executable := false,
                     shared := false, private_ := false }
    offset := 0
    device := { major := 0, minor := 0 }
    inode := 0
    pathname := .Mmap }

/-! ## Display renderings (`impl fmt::Display for ...`, lib.rs) -/

/-- Rendering of `AddressRange` (lib.rs lines 49-53): `{:x}-{:x}`, i.e.
lowercase hex with no padding, dash-joined. -/
def AddressRange.fmt (r : AddressRange) : String :=
  String.mk (Nat.toDigits 16 r.begin) ++ "-" ++ String.mk (Nat.toDigits 16 r.end_)

/-- Rendering of `Permissions` (lib.rs lines 65-95): the source pushes `r`
or `-`, `w` or `-`, `e` or `-`, then `s` or `p`. -/
def Permissions.fmt (p : Permissions) : String :=
  String.mk [if p.readable then 'r' else '-',
             if p.writable then 'w' else '-',
             if p.executable then 'e' else '-',
             if p.shared then 's' else 'p']

/-- Zero-pad a digit run to a minimum width of 2 (Rust's `{:02}` padding;
digit runs are never empty). -/
def pad2 (cs : List Char) : List Char :=
  if cs.length < 2 then '0' :: cs else cs

/-- Rendering of `Device` (lib.rs lines 104-108): the source formats with
`{:02}-{:02}`, i.e. decimal digits zero-padded to width 2, dash-joined. -/
def Device.fmt (d : Device) : String :=
  String.mk (pad2 (Nat.toDigits 10 d.major)) ++ "-" ++ String.mk (pad2 (Nat.toDigits 10 d.minor))

/-! ## The line iterator (`Maps`, lib.rs lines 216-266) -/

/-- A wrapper structure for consuming individual maps from a reader; the
in-memory reader (`&[u8]`, as produced by `from_str`) is modelled as the
remaining characters of the input. -/
structure Maps where
  reader : List Char
deriving DecidableEq

/-- `Iterator::next` for `Maps` (lib.rs lines 223-237): `read_line` returns
0 bytes at end of stream, terminating the sequence; otherwise it reads up to
and including a `\n` (or to end of input), one trailing `\n` is popped, and
the line is parsed.  An in-memory reader never yields an I/O error. -/
def Maps.next (self : Maps) : Option (Except Error Map × Maps) :=
  match self.reader with
  | [] => none
  | cs =>
    let lineChars := cs.takeWhile (fun c => c != '\n')
    let rest := (cs.dropWhile (fun c => c != '\n')).drop 1
    some (Map.parse (String.mk lineChars), Maps.mk rest)

/-- `from_str` (lib.rs line 264): wrap an in-memory string. -/
def fromStr (s : String) : Maps :=
  Maps.mk s.data

/-- Drive the iterator to exhaustion, fuelled: each successful `next`
consumes at least one character, so `reader.length + 1` pulls suffice. -/
def mapsListCore : Nat → Maps → List (Except Error Map)
  | 0, _ => []
  | fuel + 1, self =>
    match self.next with
    | none => []
    | some (r, rest) => r :: mapsListCore fuel rest

/-- Every item the `Maps` iterator yields, in order. -/
def mapsList (self : Maps) : List (Except Error Map) :=
  mapsListCore (self.reader.length + 1) self

/-! ## Concrete inputs used by the witness theorems -/

/-- Witness line for the pathname-classification claim. -/
def w1line : String := "0-0 r--p 0 0:0 0 [foo]"

/-- The fields `w1line` tokenizes to. -/
def w1fields : ParsedFields := ⟨"0", "0", "r--p", "0", "0", "0", "0", "[foo]"⟩

/-- The record `w1line` decodes to. -/
def w1map : Map :=
  { address_range := { begin := 0, end_ := 0 }
    permissions := { readable := true, writable := false, executable := false,
                     shared := false, private_ := true }
    offset := 0
    device := { major := 0, minor := 0 }
    inode := 0
    pathname := .OtherPseudo "[foo]" }

/-- Witness line for the shared/private complementarity claim. -/
def w2line : String := "0-0 rw-s 0 0:0 0"

/-- The record `w2line` decodes to. -/
def w2map : Map :=
  { address_range := { begin := 0, end_ := 0 }
    permissions := { readable := true, writable := true, executable := false,
                     shared := true, private_ := false }
    offset := 0
    device := { major := 0, minor := 0 }
    inode := 0
    pathname := .Mmap }

/-- Witness line for the executable-marker claim. -/
def w5line : String := "0-0 r-xp 0 0:0 0"

/-- The fields `w5line` tokenizes to. -/
def w5fields : ParsedFields := ⟨"0", "0", "r-xp", "0", "0", "0", "0", ""⟩

/-- The record `w5line` decodes to. -/
def w5map : Map :=
  { address_range := { begin := 0, end_ := 0 }
    permissions := { readable := true, writable := false, executable := true,
                     shared := false, private_ := true }
    offset := 0
    device := { major := 0, minor := 0 }
    inode := 0
    pathname := .Mmap }

/-- Witness line for the overflow claim: its end-address token has 17 hex
digits, all significant. -/
def w6line : String := "0-11111111111111111 r--p 0 0:0 0"

/-- The fields `w6line` tokenizes to. -/
def w6fields : ParsedFields := ⟨"0", "11111111111111111", "r--p", "0", "0", "0", "0", ""⟩

/-! ## Helper lemmas -/

/-- A successful checked accumulation computes exactly the unchecked digit
value, and that value is below the `u64` limit. -/
theorem u64Core_some {radix : Nat} :
    ∀ (cs : List Char) (acc v : Nat), acc < U64LIMIT →
      u64FromStrRadixCore radix acc cs = some v →
      v = cs.foldl (fun a c => a * radix + ((digitVal radix c).getD 0)) acc ∧ v < U64LIMIT := by
  intro cs
  induction cs with
  | nil =>
    intro acc v hacc h
    simp only [u64FromStrRadixCore, Option.some.injEq] at h
    subst h
    exact ⟨rfl, hacc⟩
  | cons c cs ih =>
    intro acc v hacc h
    simp only [u64FromStrRadixCore] at h
    cases hd : digitVal radix c with
    | none => rw [hd] at h; exact absurd h (by simp)
    | some d =>
      rw [hd] at h
      simp only at h
      by_cases hlt : acc * radix + d < U64LIMIT
      · rw [if_pos hlt] at h
        obtain ⟨h1, h2⟩ := ih _ _ hlt h
        refine ⟨?_, h2⟩
        rw [List.foldl_cons]
        simpa [hd] using h1
      · rw [if_neg hlt] at h
        exact absurd h (by simp)

/-- The unchecked digit value only grows as more digits are folded in. -/
theorem foldl_digits_le {radix : Nat} (hr : 1 ≤ radix) :
    ∀ (cs : List Char) (acc : Nat),
      acc ≤ cs.foldl (fun a c => a * radix + ((digitVal radix c).getD 0)) acc := by
  intro cs
  induction cs with
  | nil => intro acc; simp
  | cons c cs ih =>
    intro acc
    rw [List.foldl_cons]
    refine le_trans ?_ (ih _)
    have h1 : acc * 1 ≤ acc * radix := Nat.mul_le_mul_left acc hr
    omega

/-- A hex token whose unchecked value does not fit in a `u64` is rejected
by `u64::from_str_radix`. -/
theorem u64FromStrRadix_eq_none_of_overflow {s : String}
    (hover : U64LIMIT ≤ hexValue s) : u64FromStrRadix 16 s = none := by
  cases hres : u64FromStrRadix 16 s with
  | none => rfl
  | some v =>
    exfalso
    unfold u64FromStrRadix at hres
    unfold hexValue at hover
    cases hcs : s.data with
    | nil =>
      rw [hcs] at hres
      exact absurd hres (by simp)
    | cons c cs =>
      rw [hcs] at hres hover
      simp only at hres
      obtain ⟨h1, h2⟩ := u64Core_some (c :: cs) 0 v (by norm_num [U64LIMIT]) hres
      rw [← h1] at hover
      omega

/-- Strings with equal character data are equal. -/
theorem string_data_injective {s t : String} (h : s.data = t.data) : s = t := by
  cases s; cases t; exact congrArg String.mk h

/-- The decoded `private` flag is definitionally the negation of the decoded
`shared` flag. -/
theorem decodePermissions_private (s : String) :
    (decodePermissions s).private_ = !(decodePermissions s).shared := rfl

/-- The decoded `executable` flag is the comparison of permission character
3 with `'x'`. -/
theorem decodePermissions_executable (s : String) :
    (decodePermissions s).executable = (s.data.getD 2 ' ' == 'x') := rfl

/-- Characterization of a successful `Map::parse`: the line tokenized, and
the permissions and pathname of the record are the decodings of the
corresponding raw fields. -/
theorem Map.parse_ok_elim {line : String} {m : Map} (hp : Map.parse line = .ok m) :
    ∃ f, tokenizeMap line = some f ∧
      m.permissions = decodePermissions f.perms ∧
      m.pathname = classifyPathname f.pathname := by
  unfold Map.parse at hp
  cases htok : tokenizeMap line with
  | none => rw [htok] at hp; exact absurd hp (by simp)
  | some f =>
    rw [htok] at hp
    simp only at hp
    refine ⟨f, rfl, ?_⟩
    cases hb : u64FromStrRadix 16 f.beginTok with
    | none => rw [hb] at hp; exact absurd hp (by simp)
    | some b =>
    rw [hb] at hp; simp only at hp
    cases he : u64FromStrRadix 16 f.endTok with
    | none => rw [he] at hp; exact absurd hp (by simp)
    | some e =>
    rw [he] at hp; simp only at hp
    cases ho : u64FromStrRadix 16 f.offsetTok with
    | none => rw [ho] at hp; exact absurd hp (by simp)
    | some off =>
    rw [ho] at hp; simp only at hp
    cases hma : u64FromStrRadix 16 f.majorTok with
    | none => rw [hma] at hp; exact absurd hp (by simp)
    | some ma =>
    rw [hma] at hp; simp only at hp
    cases hmi : u64FromStrRadix 16 f.minorTok with
    | none => rw [hmi] at hp; exact absurd hp (by simp)
    | some mi =>
    rw [hmi] at hp; simp only at hp
    cases hino : u64FromStrRadix 10 f.inodeTok with
    | none => rw [hino] at hp; exact absurd hp (by simp)
    | some ino =>
    rw [hino] at hp; simp only [Except.ok.injEq] at hp
    subst hp
    exact ⟨rfl, rfl⟩

/-! ## Claim theorems -/

/-- C1: for every successfully tokenized line, the decoded pathname field
follows the classification policy: an empty field yields `Mmap`; the exact
strings `[stack]`, `[vdso]`, `[vvar]`, `[vsyscall]`, `[heap]` yield the
named variants; any other non-empty bracket-delimited field yields
`OtherPseudo` verbatim; anything else yields `Path` with the raw text. -/
theorem parsed_pathname_policy (line : String) (f : ParsedFields) (m : Map)
    (htok : tokenizeMap line = some f) (hok : Map.parse line = .ok m) :
    (f.pathname = "" → m.pathname = .Mmap) ∧
    (f.pathname = "[stack]" → m.pathname = .Stack) ∧
    (f.pathname = "[vdso]" → m.pathname = .Vdso) ∧
    (f.pathname = "[vvar]" → m.pathname = .Vvar) ∧
    (f.pathname = "[vsyscall]" → m.pathname = .Vsyscall) ∧
    (f.pathname = "[heap]" → m.pathname = .Heap) ∧
    (f.pathname ≠ "" →
      f.pathname ∉ (["[stack]", "[vdso]", "[vvar]", "[vsyscall]", "[heap]"] : List String) →
      headIs '[' f.pathname.data = true → lastIs ']' f.pathname.data = true →
      m.pathname = .OtherPseudo f.pathname) ∧
    (f.pathname ≠ "" →
      f.pathname ∉ (["[stack]", "[vdso]", "[vvar]", "[vsyscall]", "[heap]"] : List String) →
      ¬(headIs '[' f.pathname.data = true ∧ lastIs ']' f.pathname.data = true) →
      m.pathname = .Path f.pathname) := by
  obtain ⟨f', htok', -, hpath⟩ := Map.parse_ok_elim hok
  rw [htok] at htok'
  injection htok' with hf
  subst hf
  rw [hpath]
  have hdata : ∀ t : String, f.pathname ≠ t → f.pathname.data ≠ t.data := by
    intro t hne hcontra
    exact hne (string_data_injective hcontra)
  refine ⟨?_, ?_, ?_, ?_, ?_, ?_, ?_, ?_⟩
  · intro h; rw [h]; decide
  · intro h; rw [h]; decide
  · intro h; rw [h]; decide
  · intro h; rw [h]; decide
  · intro h; rw [h]; decide
  · intro h; rw [h]; decide
  · intro hne hmem hh hl
    simp only [List.mem_cons, List.not_mem_nil, or_false, not_or] at hmem
    obtain ⟨h1, h2, h3, h4, h5⟩ := hmem
    have hemp : f.pathname.data.isEmpty = false := by
      have := hdata "" hne
      simpa [List.isEmpty_iff] using this
    simp [classifyPathname, psuedoPathLookup, hemp, h1, h2, h3, h4, h5, hh, hl]
  · intro hne hmem hnb
    simp only [List.mem_cons, List.not_mem_nil, or_false, not_or] at hmem
    obtain ⟨h1, h2, h3, h4, h5⟩ := hmem
    have hemp : f.pathname.data.isEmpty = false := by
      have := hdata "" hne
      simpa [List.isEmpty_iff] using this
    have hb : (headIs '[' f.pathname.data && lastIs ']' f.pathname.data) = false := by
      cases hh : headIs '[' f.pathname.data <;> cases hl : lastIs ']' f.pathname.data <;>
        simp_all
    simp [classifyPathname, psuedoPathLookup, hemp, h1, h2, h3, h4, h5, hb]

/-- Witness for C1 at a concrete bracket-delimited pathname. -/
theorem parsed_pathname_policy_witness :
    tokenizeMap w1line = some w1fields ∧ Map.parse w1line = .ok w1map ∧
    ((w1fields.pathname = "" → w1map.pathname = .Mmap) ∧
     (w1fields.pathname = "[stack]" → w1map.pathname = .Stack) ∧
     (w1fields.pathname = "[vdso]" → w1map.pathname = .Vdso) ∧
     (w1fields.pathname = "[vvar]" → w1map.pathname = .Vvar) ∧
     (w1fields.pathname = "[vsyscall]" → w1map.pathname = .Vsyscall) ∧
     (w1fields.pathname = "[heap]" → w1map.pathname = .Heap) ∧
     (w1fields.pathname ≠ "" →
       w1fields.pathname ∉ (["[stack]", "[vdso]", "[vvar]", "[vsyscall]", "[heap]"] : List String) →
       headIs '[' w1fields.pathname.data = true → lastIs ']' w1fields.pathname.data = true →
       w1map.pathname = .OtherPseudo w1fields.pathname) ∧
     (w1fields.pathname ≠ "" →
       w1fields.pathname ∉ (["[stack]", "[vdso]", "[vvar]", "[vsyscall]", "[heap]"] : List String) →
       ¬(headIs '[' w1fields.pathname.data = true ∧ lastIs ']' w1fields.pathname.data = true) →
       w1map.pathname = .Path w1fields.pathname)) :=
  ⟨by decide, by decide, parsed_pathname_policy w1line w1fields w1map (by decide) (by decide)⟩

/-- C2: every record produced by a successful `Map::parse` has exactly one
of `shared`/`private` set: `private` is the negation of `shared`. -/
theorem parsed_shared_private_complementary (line : String) (m : Map)
    (hok : Map.parse line = .ok m) :
    (m.permissions.shared = true ∧ m.permissions.private_ = false) ∨
    (m.permissions.shared = false ∧ m.permissions.private_ = true) := by
  obtain ⟨f, -, hperm, -⟩ := Map.parse_ok_elim hok
  have h := decodePermissions_private f.perms
  rw [← hperm] at h
  cases hs : m.permissions.shared with
  | false => right; refine ⟨rfl, ?_⟩; rw [h, hs]; rfl
  | true => left; refine ⟨rfl, ?_⟩; rw [h, hs]; rfl

/-- Witness for C2 at a concrete shared mapping. -/
theorem parsed_shared_private_complementary_witness :
    Map.parse w2line = .ok w2map ∧
    ((w2map.permissions.shared = true ∧ w2map.permissions.private_ = false) ∨
     (w2map.permissions.shared = false ∧ w2map.permissions.private_ = true)) :=
  ⟨by decide, parsed_shared_private_complementary w2line w2map (by decide)⟩

/-- C3 (code evaluated at the failing input): the source renders `Device`
with `{:02}-{:02}`, i.e. zero-padded decimal, so `Device{major:8,minor:17}`
renders as `"08-17"`, not the hexadecimal `"08-11"` the claim states. -/
theorem device_fmt_is_decimal :
    Device.fmt ⟨8, 17⟩ = "08-17" ∧ Device.fmt ⟨8, 17⟩ ≠ "08-11" := by decide

/-- C4 (code evaluated at the failing input): the source pushes `'e'`, not
`'x'`, for an executable mapping, so a `Permissions` value with
`executable = true` renders with `'e'` in position 3. -/
theorem permissions_fmt_uses_e :
    Permissions.fmt ⟨true, false, true, false, true⟩ = "r-ep" ∧
    Permissions.fmt ⟨true, false, true, false, true⟩ ≠ "r-xp" := by decide

/-- C5 counterexample: the grammar accepts the token `rwep` (executable
marker `'e'`), but the decoder tests character 3 only against `'x'`, so the
decoded record has `executable = false`, refuting the claim that either
marker decodes to `true`. -/
theorem executable_e_marker_counterexample :
    tokenizeMap "0-0 rwep 00000000 00:00 0" =
      some ⟨"0", "0", "rwep", "00000000", "00", "00", "0", ""⟩ ∧
    (Map.parse "0-0 rwep 00000000 00:00 0").map (fun m => m.permissions.executable) =
      .ok false := by decide

/-- C5 (amended): for every grammar-accepted permission token, the decoded
`executable` flag is `true` when character 3 is `'x'` and `false` when it is
the alternative marker `'e'`: the decoder compares character 3 with `'x'`
only. -/
theorem executable_flag_iff_x_marker (line : String) (f : ParsedFields) (m : Map)
    (htok : tokenizeMap line = some f) (hok : Map.parse line = .ok m) :
    (f.perms.data.getD 2 ' ' = 'x' → m.permissions.executable = true) ∧
    (f.perms.data.getD 2 ' ' = 'e' → m.permissions.executable = false) := by
  obtain ⟨f', htok', hperm, -⟩ := Map.parse_ok_elim hok
  rw [htok] at htok'
  injection htok' with hf
  subst hf
  rw [hperm, decodePermissions_executable]
  constructor <;> intro h <;> rw [h] <;> decide

/-- Witness for C5 (amended) at a concrete executable mapping. -/
theorem executable_flag_iff_x_marker_witness :
    tokenizeMap w5line = some w5fields ∧ Map.parse w5line = .ok w5map ∧
    ((w5fields.perms.data.getD 2 ' ' = 'x' → w5map.permissions.executable = true) ∧
     (w5fields.perms.data.getD 2 ' ' = 'e' → w5map.permissions.executable = false)) :=
  ⟨by decide, by decide, executable_flag_iff_x_marker w5line w5fields w5map (by decide) (by decide)⟩

/-- C6 counterexample: a hex token with more than 16 hex digits does not by
itself denote a value outside the `u64` range and is not rejected: this
line's 20-digit offset token decodes to `1` and the parse succeeds. -/
theorem hex_width_digits_counterexample :
    ("00000000000000000001" : String).length = 20 ∧
    Map.parse "0-1 r--p 00000000000000000001 08:11 0" =
      .ok { address_range := { begin := 0, end_ := 1 }
            permissions := { readable := true, writable := false, executable := false,
                             shared := false, private_ := true }
            offset := 1
            device := { major := 8, minor := 17 }
            inode := 0
            pathname := .Mmap } := by decide

/-- C6 (amended): for every tokenized line, if the value denoted by any of
the address-range, offset, or device hex tokens exceeds the unsigned 64-bit
range, `Map::parse` fails with `WidthError`: the value is never silently
truncated and no record is produced. -/
theorem hex_overflow_width_error (line : String) (f : ParsedFields)
    (htok : tokenizeMap line = some f)
    (hover : U64LIMIT ≤ hexValue f.beginTok ∨ U64LIMIT ≤ hexValue f.endTok ∨
             U64LIMIT ≤ hexValue f.offsetTok ∨ U64LIMIT ≤ hexValue f.majorTok ∨
             U64LIMIT ≤ hexValue f.minorTok) :
    Map.parse line = .error .WidthError := by
  unfold Map.parse
  rw [htok]
  simp only
  rcases hover with h | h | h | h | h
  · rw [u64FromStrRadix_eq_none_of_overflow h]
  · cases u64FromStrRadix 16 f.beginTok
    · rfl
    · simp only
      rw [u64FromStrRadix_eq_none_of_overflow h]
  · cases u64FromStrRadix 16 f.beginTok
    · rfl
    · simp only
      cases u64FromStrRadix 16 f.endTok
      · rfl
      · simp only
        rw [u64FromStrRadix_eq_none_of_overflow h]
  · cases u64FromStrRadix 16 f.beginTok
    · rfl
    · simp only
      cases u64FromStrRadix 16 f.endTok
      · rfl
      · simp only
        cases u64FromStrRadix 16 f.offsetTok
        · rfl
        · simp only
          rw [u64FromStrRadix_eq_none_of_overflow h]
  · cases u64FromStrRadix 16 f.beginTok
    · rfl
    · simp only
      cases u64FromStrRadix 16 f.endTok
      · rfl
      · simp only
        cases u64FromStrRadix 16 f.offsetTok
        · rfl
        · simp only
          cases u64FromStrRadix 16 f.majorTok
          · rfl
          · simp only
            rw [u64FromStrRadix_eq_none_of_overflow h]

/-- Witness for C6 (amended): the end-address token of `w6line` denotes a
value above `2 ^ 64 - 1`, and the parse fails with `WidthError`. -/
theorem hex_overflow_width_error_witness :
    tokenizeMap w6line = some w6fields ∧ U64LIMIT ≤ hexValue w6fields.endTok ∧
    Map.parse w6line = .error .WidthError :=
  ⟨by decide, by decide,
   hex_overflow_width_error w6line w6fields (by decide) (Or.inr (Or.inl (by decide)))⟩

/-- C7 (code evaluated at the failing input): re-rendering the decoded
sub-fields of a valid line preserves the address range semantically, but the
rendered `Permissions` uses the marker `'e'`, which the decoder itself reads
back as non-executable, and the rendered `Device` is decimal, so the minor
number 17 (input hex token `11`) re-reads under the input's hex convention
as 23: the rendered values are not semantically those of the input tokens. -/
theorem roundtrip_not_semantic_identity :
    (Map.parse "5608dd391000-5608dd3be000 r-xp 00000000 08:11 6572575 /bin/bash").map
        (fun m => AddressRange.fmt m.address_range) = .ok "5608dd391000-5608dd3be000" ∧
    (Map.parse "5608dd391000-5608dd3be000 r-xp 00000000 08:11 6572575 /bin/bash").map
        (fun m => Permissions.fmt m.permissions) = .ok "r-ep" ∧
    decodePermissions "r-ep" ≠ decodePermissions "r-xp" ∧
    (Map.parse "5608dd391000-5608dd3be000 r-xp 00000000 08:11 6572575 /bin/bash").map
        (fun m => Device.fmt m.device) = .ok "08-17" ∧
    u64FromStrRadix 16 "17" = some 23 := by decide

/-- C8: the end-to-end example line decodes to exactly the record the spec
gives. -/
theorem end_to_end_example :
    Map.parse "5608dd391000-5608dd3be000 r--p 00000000 08:11 6572575 /bin/bash" =
      .ok { address_range := { begin := 0x5608dd391000, end_ := 0x5608dd3be000 }
            permissions := { readable := true, writable := false, executable := false,
                             shared := false, private_ := true }
            offset := 0
            device := { major := 8, minor := 17 }
            inode := 6572575
            pathname := .Path "/bin/bash" } := by decide

/-- C9: over an empty input source the iterator yields nothing on the first
pull, and the whole yielded sequence is empty: end of stream terminates the
sequence rather than surfacing an error item. -/
theorem empty_source_yields_no_items :
    (fromStr "").next = none ∧ mapsList (fromStr "") = [] := by decide

/-- C10: the default `Map` has every permission flag `false` (so it does
not satisfy the exactly-one-of-shared/private invariant of parsed records),
zero numeric fields, and pathname `Mmap`. -/
theorem default_map_fields :
    Map.default.permissions.readable = false ∧
    Map.default.permissions.writable = false ∧
    Map.default.permissions.executable = false ∧
    Map.default.permissions.shared = false ∧
    Map.default.permissions.private_ = false ∧
    ¬((Map.default.permissions.shared = true ∧ Map.default.permissions.private_ = false) ∨
      (Map.default.permissions.shared = false ∧ Map.default.permissions.private_ = true)) ∧
    Map.default.address_range = ⟨0, 0⟩ ∧
    Map.default.offset = 0 ∧
    Map.default.device = ⟨0, 0⟩ ∧
    Map.default.inode = 0 ∧
    Map.default.pathname = .Mmap := by decide

end Procmaps
